import Mathlib

/-!
Verification of the plan-driven file generation engine of
`assistantProject.py` (an interactive Ollama-based file assistant).

The Python source is shallowly embedded:

* `run_ollama` is parametrised by the outcome of the external subprocess
  (`ProcOutcome`), since the model runner is an opaque external process.
* `json.loads` (Python standard library, declared an external collaborator
  by the design) is a parameter `jsonLoads : String → Option Json`.
* File storage is a partial map `Store := String → Option String`.
* User input (the approve / feedback / discard answers read from stdin)
  is an explicit stream `List Decision`.
* The recursive dependency materialisation of `create_file_entry` carries a
  fuel parameter: the Python recursion has no structural bound, and `none`
  (fuel exhausted at every depth, or input stream exhausted where Python
  would block) models divergence.  A result `some st` corresponds exactly
  to a terminating Python run.
* Every oracle invocation is recorded (its prompt is appended to
  `GenSt.calls`), which makes "the oracle was invoked / re-queried"
  provable as trace membership.
-/

/-- Python whitespace characters stripped by `str.strip()` (ASCII range). -/
def isPyWs (c : Char) : Bool :=
  c = ' ' || c = '\t' || c = '\n' || c = '\r' || c = '\x0b' || c = '\x0c'

/-- Python `s.strip()`: drop leading and trailing whitespace. -/
def pyStrip (s : String) : String :=
  String.mk (((s.data.dropWhile isPyWs).reverse.dropWhile isPyWs).reverse)

/-- Python `s.startswith(pre)`, via character lists (kernel-reducible). -/
def strStarts (s pre : String) : Bool :=
  pre.data.isPrefixOf s.data

/-- Python `s.endswith(suf)`, via character lists (kernel-reducible). -/
def strEnds (s suf : String) : Bool :=
  suf.data.isSuffixOf s.data

/-- Helper for `splitChar`: accumulate the current piece (reversed). -/
def splitCharAux (sep : Char) : List Char → List Char → List String
  | [], acc => [String.mk acc.reverse]
  | c :: cs, acc =>
    if c = sep then String.mk acc.reverse :: splitCharAux sep cs []
    else splitCharAux sep cs (c :: acc)

/-- Python `s.split(sep)` for a one-character separator: split on every
occurrence, keeping empty pieces (so `"".split` gives `[""]`). -/
def splitChar (sep : Char) (s : String) : List String :=
  splitCharAux sep s.data []

/-- Python `sep.join(pieces)`. -/
def joinSep (sep : String) : List String → String
  | [] => ""
  | [s] => s
  | s :: rest => s ++ sep ++ joinSep sep rest

/-- Outcome of one invocation of the external `ollama run` subprocess, as
observed by `run_ollama`: either the process ran (with captured stdout,
stderr and a return code) or some exception was raised while invoking it. -/
inductive ProcOutcome where
  | ok (stdout : String) (stderr : String) (returncode : Int)
  | exn (msg : String)

/-- Embedding of `run_ollama` (src lines 34-52): on a completed process with
return code 0 it returns `result.stdout.strip()`; on a non-zero return code
it prints the error and returns `""`; any exception is caught and `""` is
returned (nothing propagates to the caller). -/
def run_ollama : ProcOutcome → String
  | ProcOutcome.ok stdout _ rc => if rc ≠ 0 then "" else pyStrip stdout
  | ProcOutcome.exn _ => ""

/-- A JSON value, the shape `json.loads` produces. -/
inductive Json where
  | null
  | bool (b : Bool)
  | num (n : Int)
  | str (s : String)
  | arr (xs : List Json)
  | obj (fields : List (String × Json))

/-- The legacy-format normalisation of `generate_project_plan`
(src lines 175-177): a bare JSON list is wrapped into
`\x7b"files": [\x7b"name": f, "description": "", "dependencies": []\x7d ...]\x7d`;
every other JSON value is returned unchanged. -/
def normalizeLegacy : Json → Json
  | Json.arr xs => Json.obj [("files", Json.arr (xs.map (fun f =>
      Json.obj [("name", f), ("description", Json.str ""), ("dependencies", Json.arr [])])))]
  | j => j

/-- The fence-stripping step of `generate_project_plan` (src lines 171-172):
if the (already stripped) plan text starts with a backtick fence marker,
drop its first and last lines and strip the rest. -/
def stripCodeFence (t : String) : String :=
  if strStarts t "```" then
    pyStrip (joinSep "\n" (((splitChar '\n' t).drop 1).dropLast))
  else t

/-- Embedding of the parsing part of `generate_project_plan`
(src lines 157-182), applied to the text the oracle returned
(`run_ollama(model, prompt)`): strip it, strip a code fence if present,
parse it as JSON (`jsonLoads`, the external `json.loads`), normalise the
legacy bare-list format, and return `none` when JSON parsing fails. -/
def generate_project_plan (jsonLoads : String → Option Json) (planResponse : String) :
    Option Json :=
  (jsonLoads (stripCodeFence (pyStrip planResponse))).map normalizeLegacy

/-- The JSON text with an empty file list. -/
def emptyFilesJson : String := "\x7b\"files\":[]\x7d"

/-- The same JSON text wrapped in a markdown code fence. -/
def fencedEmptyFiles : String := "```\n" ++ emptyFilesJson ++ "\n```"

/-- The legacy bare-list response text. -/
def legacyListText : String := "[\"a.py\",\"b.py\"]"

/-- A file specification from the plan: a dict with `name`, `description`
and optional `dependencies` (missing keys default to `""` / `[]`, mirroring
the `.get` accesses in `generate_files_from_plan`). -/
structure FileEntry where
  name : String
  description : String
  dependencies : List String
deriving DecidableEq, Repr

/-- The file system as seen by the generator: path to content. -/
def Store : Type := String → Option String

/-- Writing a file: `open(path, "w")` followed by `f.write(content)`. -/
def writeStore (fs : Store) (path content : String) : Store :=
  fun p => if p = path then some content else fs p

/-- One valid answer read from the user in `handle_suggestion`
(`prompt_user_choice` re-asks until one of y / n / f is typed, so only the
valid answers are modelled; `feedback` carries the free text typed next). -/
inductive Decision where
  | apply
  | discard
  | feedback (text : String)
deriving DecidableEq, Repr

/-- The mutable state threaded through one generation pass:
`created` is the `files_created` set (GenerationState), `fs` the file
system, `input` the remaining user answers on stdin, and `calls` the trace
of prompts sent to the oracle so far (each `run_ollama` call appends). -/
structure GenSt where
  created : List String
  fs : Store
  input : List Decision
  calls : List String

/-- `files_created.add name` (set insertion). -/
def addName (n : String) (l : List String) : List String :=
  if n ∈ l then l else n :: l

/-- The `PROJECT_RESOURCE_EXTS["default"]` entry (src line 14). -/
def defaultExts : List String := [".css", ".js", ".py", ".json", ".csv", ".md"]

/-- The `PROJECT_RESOURCE_EXTS` registry (src lines 11-15). -/
def PROJECT_RESOURCE_EXTS : List (String × List String) :=
  [("website", [".css", ".js", ".json"]),
   ("python_classroom", [".py", ".ipynb", ".csv", ".json", ".md"]),
   ("default", defaultExts)]

/-- `PROJECT_RESOURCE_EXTS.get(project_type, PROJECT_RESOURCE_EXTS["default"])`. -/
def resourceExts (project_type : String) : List String :=
  ((PROJECT_RESOURCE_EXTS.find? (fun p => p.fst == project_type)).map Prod.snd).getD defaultExts

/-- Embedding of `is_resource_file` (src lines 18-21). -/
def is_resource_file (filename : String) (project_type : String) : Bool :=
  (resourceExts project_type).any (fun ext => strEnds filename ext)

/-- `os.path.join(project_path, name)`, for relative plan names. -/
def pathJoin (a b : String) : String := a ++ "/" ++ b

/-- `next((f for f in files_list if f["name"] == dep), None)` (src line 219). -/
def findEntry (files_list : List FileEntry) (dep : String) : Option FileEntry :=
  files_list.find? (fun f => f.name == dep)

/-- The prompt-building step of `create_file_entry` (src lines 226-232):
returns `current_content` (the content read from storage, or `none` when
the target does not exist) together with the generation prompt. -/
def buildPrompt (project_path : String) (fe : FileEntry) (fs : Store) :
    Option String × String :=
  let filename := pathJoin project_path fe.name
  match fs filename with
  | some current =>
    (some current,
     "Here is the current content of '" ++ fe.name ++ "':\n" ++ current
       ++ "\nSuggest improved content.")
  | none =>
    (none, "Write the initial content for '" ++ fe.name ++ "': " ++ fe.description)

/-- The revision prompt built on feedback (src lines 295-297): the feedback
and the current suggestion, with the original content prepended when that
is a non-empty string (Python truthiness of `original_content`). -/
def revisionPrompt (original_content : Option String) (fb suggestion : String) : String :=
  match original_content with
  | some oc =>
    if oc ≠ "" then
      "Original content:\n" ++ oc ++ "\n\n"
        ++ "Revise this based on feedback '" ++ fb ++ "':\n" ++ suggestion
    else "Revise this based on feedback '" ++ fb ++ "':\n" ++ suggestion
  | none => "Revise this based on feedback '" ++ fb ++ "':\n" ++ suggestion

/-- Embedding of `handle_suggestion` (src lines 258-304).  The loop runs
until the user applies (`"y"`, a verbatim overwrite of the target), gives
feedback (`"f"`, a re-query of the oracle; an empty revision breaks the
loop), or discards (`"n"`); in `AUTO_MODE` the answer is always `"y"` and
no input is read.  Returns the file system, the unconsumed input and the
oracle-call trace; `none` models the program blocking on an exhausted
input stream.  The auto branch is the same in every equation, split per
input shape only so each defining equation matches one head of the
stream. -/
def handle_suggestion (proc : String → ProcOutcome) (autoMode : Bool)
    (filename : String) (original_content : Option String) :
    String → List Decision → Store → List String →
    Option (Store × List Decision × List String)
  | suggestion, [], fs, calls =>
    if autoMode then some (writeStore fs filename suggestion, [], calls)
    else none
  | suggestion, Decision.apply :: rest, fs, calls =>
    if autoMode then some (writeStore fs filename suggestion, Decision.apply :: rest, calls)
    else some (writeStore fs filename suggestion, rest, calls)
  | suggestion, Decision.discard :: rest, fs, calls =>
    if autoMode then some (writeStore fs filename suggestion, Decision.discard :: rest, calls)
    else some (fs, rest, calls)
  | suggestion, Decision.feedback fb :: rest, fs, calls =>
    if autoMode then some (writeStore fs filename suggestion, Decision.feedback fb :: rest, calls)
    else
      if pyStrip (run_ollama (proc (revisionPrompt original_content fb suggestion))) = "" then
        some (fs, rest, calls ++ [revisionPrompt original_content fb suggestion])
      else
        handle_suggestion proc autoMode filename original_content
          (run_ollama (proc (revisionPrompt original_content fb suggestion))) rest fs
          (calls ++ [revisionPrompt original_content fb suggestion])

/-- The dependency loop of `create_file_entry` (src lines 218-223): for each
dependency name, resolve it against the plan's own file list; if it resolves,
is not yet in `files_created` and is a resource file for the project type,
recursively materialise it (`recur`, instantiated with `create_file_entry`
at one fuel less); every other case is silently skipped. -/
def processDeps (files_list : List FileEntry) (project_type : String)
    (recur : FileEntry → GenSt → Option GenSt) :
    List String → GenSt → Option GenSt
  | [], st => some st
  | dep :: rest, st =>
    match findEntry files_list dep with
    | none => processDeps files_list project_type recur rest st
    | some depEntry =>
      if depEntry.name ∈ st.created then
        processDeps files_list project_type recur rest st
      else if is_resource_file depEntry.name project_type then
        match recur depEntry st with
        | none => none
        | some st2 => processDeps files_list project_type recur rest st2
      else
        processDeps files_list project_type recur rest st

/-- The tail of `create_file_entry` after the dependency loop
(src lines 226-240): build the prompt, query the oracle (the prompt is
recorded in `calls`); an empty (or whitespace-only) suggestion skips the
file without touching `files_created`; otherwise the review loop runs and
afterwards the name is added to `files_created` whatever the user decided. -/
def finishEntry (proc : String → ProcOutcome) (autoMode : Bool)
    (project_path : String) (fe : FileEntry) (st1 : GenSt) : Option GenSt :=
  if pyStrip (run_ollama (proc (buildPrompt project_path fe st1.fs).snd)) = "" then
    some (GenSt.mk st1.created st1.fs st1.input
      (st1.calls ++ [(buildPrompt project_path fe st1.fs).snd]))
  else
    match handle_suggestion proc autoMode (pathJoin project_path fe.name)
        (buildPrompt project_path fe st1.fs).fst
        (run_ollama (proc (buildPrompt project_path fe st1.fs).snd))
        st1.input st1.fs (st1.calls ++ [(buildPrompt project_path fe st1.fs).snd]) with
    | none => none
    | some (fs2, input2, calls2) =>
      some (GenSt.mk (addName fe.name st1.created) fs2 input2 calls2)

/-- Embedding of `create_file_entry` (src lines 213-240): materialise the
resource dependencies first (`processDeps`), then generate the file itself
(`finishEntry`).  `fuel` bounds the recursion depth; the Python recursion
has no such bound, so `none` at every fuel models divergence. -/
def create_file_entry (proc : String → ProcOutcome) (autoMode : Bool)
    (files_list : List FileEntry) (project_path : String) (project_type : String) :
    Nat → FileEntry → GenSt → Option GenSt
  | 0, _, _ => none
  | fuel + 1, fe, st =>
    match processDeps files_list project_type
        (fun e s => create_file_entry proc autoMode files_list project_path project_type fuel e s)
        fe.dependencies st with
    | none => none
    | some st1 => finishEntry proc autoMode project_path fe st1

/-- The top-level walk of `generate_files_from_plan` (src lines 243-245):
process each plan entry in order, skipping names already in
`files_created`.  The first list argument is the whole plan (closed over by
`create_file_entry`), the walked list starts as that same plan. -/
def generate_files_from_plan (proc : String → ProcOutcome) (autoMode : Bool)
    (files_list : List FileEntry) (project_path : String) (project_type : String)
    (fuel : Nat) : List FileEntry → GenSt → Option GenSt
  | [], st => some st
  | fe :: rest, st =>
    if fe.name ∈ st.created then
      generate_files_from_plan proc autoMode files_list project_path project_type fuel rest st
    else
      match create_file_entry proc autoMode files_list project_path project_type fuel fe st with
      | none => none
      | some st2 =>
        generate_files_from_plan proc autoMode files_list project_path project_type fuel rest st2

/-- A resolved dependency entry carries exactly the searched name
(`f["name"] == dep` is the search predicate). -/
theorem findEntry_name {files_list : List FileEntry} {dep : String} {e : FileEntry}
    (h : findEntry files_list dep = some e) : e.name = dep := by
  unfold findEntry at h
  have := List.find?_some h
  simpa [beq_iff_eq] using this

/-- A name just inserted into `files_created` is in the set. -/
theorem addName_mem (n : String) (l : List String) : n ∈ addName n l := by
  unfold addName
  split
  · assumption
  · exact List.mem_cons_self n l

/-- The review loop only ever appends to the oracle-call trace. -/
theorem handle_suggestion_calls_extend (proc : String → ProcOutcome) (autoMode : Bool)
    (filename : String) (oc : Option String) :
    ∀ (input : List Decision) (suggestion : String) (fs : Store) (calls : List String)
      (fs2 : Store) (input2 : List Decision) (calls2 : List String),
      handle_suggestion proc autoMode filename oc suggestion input fs calls
        = some (fs2, input2, calls2) →
      ∃ ext, calls2 = calls ++ ext := by
  cases autoMode with
  | true =>
    intro input suggestion fs calls fs2 input2 calls2 h
    cases input with
    | nil =>
      simp [handle_suggestion] at h
      exact ⟨[], by simp [h.2.2]⟩
    | cons d rest =>
      cases d <;> simp [handle_suggestion] at h <;> exact ⟨[], by simp [h.2.2]⟩
  | false =>
    intro input
    induction input with
    | nil =>
      intro suggestion fs calls fs2 input2 calls2 h
      simp [handle_suggestion] at h
    | cons d rest ih =>
      intro suggestion fs calls fs2 input2 calls2 h
      cases d with
      | apply =>
        simp [handle_suggestion] at h
        exact ⟨[], by simp [h.2.2]⟩
      | discard =>
        simp [handle_suggestion] at h
        exact ⟨[], by simp [h.2.2]⟩
      | feedback fb =>
        simp only [handle_suggestion, Bool.false_eq_true, if_false] at h
        split at h
        · simp only [Option.some.injEq, Prod.mk.injEq] at h
          exact ⟨_, h.2.2.symm⟩
        · obtain ⟨ext, hext⟩ := ih _ _ _ _ _ _ h
          exact ⟨_, by rw [hext, List.append_assoc]⟩

/-- C3: for every model invocation outcome, the oracle adapter `run_ollama`
returns the process standard output with leading and trailing whitespace
trimmed when the process exits with status 0, returns the empty string when
the exit status is non-zero, and returns the empty string (catching, never
propagating) when an exception is raised during invocation. -/
theorem run_ollama_contract (stdout stderr msg : String) (rc : Int) :
    (rc = 0 → run_ollama (ProcOutcome.ok stdout stderr rc) = pyStrip stdout)
    ∧ (rc ≠ 0 → run_ollama (ProcOutcome.ok stdout stderr rc) = "")
    ∧ run_ollama (ProcOutcome.exn msg) = "" := by
  refine ⟨fun h => ?_, fun h => ?_, rfl⟩
  · simp [run_ollama, h]
  · simp [run_ollama, h]

/-- C3 witness: a successful call returns trimmed stdout, a non-zero exit
and an exception each return the empty-string sentinel. -/
theorem run_ollama_contract_witness :
    run_ollama (ProcOutcome.ok " hi \n" "" 0) = "hi"
    ∧ run_ollama (ProcOutcome.ok "x" "boom" 1) = ""
    ∧ run_ollama (ProcOutcome.exn "spawn failed") = "" :=
  ⟨((run_ollama_contract " hi \n" "" "spawn failed" 0).1 rfl).trans (by decide),
   (run_ollama_contract "x" "boom" "spawn failed" 1).2.1 (by decide),
   (run_ollama_contract "x" "boom" "spawn failed" 1).2.2⟩

/-- C8: in the review loop, an apply decision (the next input, with
automatic mode off) writes the current suggestion verbatim to storage at
the target path — the result is exactly `writeStore fs filename suggestion`
— and reading that path back yields exactly the suggestion (prior content
is overwritten, nothing is merged). -/
theorem apply_writes_verbatim (proc : String → ProcOutcome) (filename : String)
    (original_content : Option String) (suggestion : String) (rest : List Decision)
    (fs : Store) (calls : List String) :
    handle_suggestion proc false filename original_content suggestion
        (Decision.apply :: rest) fs calls
      = some (writeStore fs filename suggestion, rest, calls)
    ∧ writeStore fs filename suggestion filename = some suggestion := by
  constructor
  · simp [handle_suggestion]
  · simp [writeStore]

/-- C9: in the review loop, a discard decision (the next input, with
automatic mode off) terminates the loop returning the storage untouched:
the store component of the result is the very store the session began
with, so the content at every path — in particular the target path — is
exactly as it was. -/
theorem discard_never_writes (proc : String → ProcOutcome) (filename : String)
    (original_content : Option String) (suggestion : String) (rest : List Decision)
    (fs : Store) (calls : List String) :
    handle_suggestion proc false filename original_content suggestion
        (Decision.discard :: rest) fs calls
      = some (fs, rest, calls) := by
  simp [handle_suggestion]

/-- C4: parsing the fenced response (the backtick-fence line, then the
empty-files JSON line, then the closing fence line) yields the same plan
as parsing the unfenced JSON, for every JSON parser; and in general, when
the stripped raw text begins with a fence marker, the parser feeds the
structured parser the text with its first and last lines dropped. -/
theorem fenced_parse_agrees (jsonLoads : String → Option Json) (t : String) :
    generate_project_plan jsonLoads fencedEmptyFiles
      = generate_project_plan jsonLoads emptyFilesJson
    ∧ (strStarts (pyStrip t) "```" = true →
        generate_project_plan jsonLoads t
          = (jsonLoads (pyStrip (joinSep "\n"
              (((splitChar '\n' (pyStrip t)).drop 1).dropLast)))).map normalizeLegacy) := by
  constructor
  · have h1 : stripCodeFence (pyStrip fencedEmptyFiles) = emptyFilesJson := by decide
    have h2 : stripCodeFence (pyStrip emptyFilesJson) = emptyFilesJson := by decide
    unfold generate_project_plan
    rw [h1, h2]
  · intro h
    simp [generate_project_plan, stripCodeFence, h]

/-- A concrete `json.loads` stub defined only at the empty-files JSON text. -/
def jlEmptyFiles : String → Option Json :=
  fun s => if s = emptyFilesJson then some (Json.obj [("files", Json.arr [])]) else none

/-- C4 witness: the fence-stripping equation at the concrete fenced
response, with a concrete JSON parser. -/
theorem fenced_parse_agrees_witness :
    strStarts (pyStrip fencedEmptyFiles) "```" = true
    ∧ generate_project_plan jlEmptyFiles fencedEmptyFiles
        = (jlEmptyFiles (pyStrip (joinSep "\n"
            (((splitChar '\n' (pyStrip fencedEmptyFiles)).drop 1).dropLast)))).map normalizeLegacy :=
  ⟨by decide, (fenced_parse_agrees jlEmptyFiles fencedEmptyFiles).2 (by decide)⟩

/-- C5: parsing the legacy bare list response text yields a plan whose
`files` are two file dicts named "a.py" and "b.py" in that order, each
with empty description and empty dependency list, for every JSON parser
that reads the text as the bare list of those two strings. -/
theorem legacy_list_parse (jsonLoads : String → Option Json)
    (h : jsonLoads legacyListText = some (Json.arr [Json.str "a.py", Json.str "b.py"])) :
    generate_project_plan jsonLoads legacyListText
      = some (Json.obj [("files", Json.arr
          [Json.obj [("name", Json.str "a.py"), ("description", Json.str ""),
                     ("dependencies", Json.arr [])],
           Json.obj [("name", Json.str "b.py"), ("description", Json.str ""),
                     ("dependencies", Json.arr [])]])]) := by
  have hs : stripCodeFence (pyStrip legacyListText) = legacyListText := by decide
  simp [generate_project_plan, hs, h, normalizeLegacy]

/-- A concrete `json.loads` stub defined only at the legacy bare-list text. -/
def jlLegacyList : String → Option Json :=
  fun s =>
    if s = legacyListText then some (Json.arr [Json.str "a.py", Json.str "b.py"]) else none

/-- C5 witness: the legacy normalisation at the concrete bare-list text
with a concrete JSON parser. -/
theorem legacy_list_parse_witness :
    generate_project_plan jlLegacyList legacyListText
      = some (Json.obj [("files", Json.arr
          [Json.obj [("name", Json.str "a.py"), ("description", Json.str ""),
                     ("dependencies", Json.arr [])],
           Json.obj [("name", Json.str "b.py"), ("description", Json.str ""),
                     ("dependencies", Json.arr [])]])]) :=
  legacy_list_parse jlLegacyList (by simp [jlLegacyList])

/-- The cyclic two-file plan: `a.py` depends on `b.py` and vice versa; both
names match the `"default"` resource-extension allow-list. -/
def cycleA : FileEntry := FileEntry.mk "a.py" "" ["b.py"]

/-- Second member of the cyclic two-file plan. -/
def cycleB : FileEntry := FileEntry.mk "b.py" "" ["a.py"]

/-- The plan consisting of the two mutually dependent resource files. -/
def cyclePlan : List FileEntry := [cycleA, cycleB]

/-- While neither cycle member is in `files_created`, `create_file_entry`
exhausts every fuel bound on either of them: each materialises the other
before marking itself, so the recursion never returns. -/
theorem cycle_exhausts_fuel (proc : String → ProcOutcome) (autoMode : Bool)
    (project_path : String) :
    ∀ (fuel : Nat) (st : GenSt), "a.py" ∉ st.created → "b.py" ∉ st.created →
      create_file_entry proc autoMode cyclePlan project_path "default" fuel cycleA st = none
      ∧ create_file_entry proc autoMode cyclePlan project_path "default" fuel cycleB st = none := by
  intro fuel
  induction fuel with
  | zero => intro st _ _; exact ⟨rfl, rfl⟩
  | succ n ih =>
    intro st ha hb
    have hfB : findEntry cyclePlan "b.py" = some cycleB := by decide
    have hfA : findEntry cyclePlan "a.py" = some cycleA := by decide
    have hrB : is_resource_file "b.py" "default" = true := by decide
    have hrA : is_resource_file "a.py" "default" = true := by decide
    have hdA : cycleA.dependencies = ["b.py"] := rfl
    have hdB : cycleB.dependencies = ["a.py"] := rfl
    have hnA : cycleA.name = "a.py" := rfl
    have hnB : cycleB.name = "b.py" := rfl
    constructor
    · simp only [create_file_entry, hdA, processDeps, hfB, hnB, hb, hrB,
        if_true, if_false, (ih st ha hb).2]
    · simp only [create_file_entry, hdB, processDeps, hfA, hnA, ha, hrA,
        if_true, if_false, (ih st ha hb).1]

/-- C1: the claim FAILS on the code.  For the plan whose two resource-type
files depend on each other, a generation pass does not terminate: for every
recursion bound (fuel), every oracle behaviour, both interaction modes and
every input stream, the embedded `generate_files_from_plan` starting from
an empty GenerationState exhausts the bound (`create_file_entry` re-enters
the cycle before either name is added to `files_created`, since a file is
marked only after its own oracle call and review loop complete, and the
code has no in-progress marker).  In Python this is infinite recursion
(`RecursionError`); neither name ever reaches GenerationState. -/
theorem cycle_plan_generation_diverges (proc : String → ProcOutcome) (autoMode : Bool)
    (project_path : String) (input : List Decision) (fuel : Nat) :
    generate_files_from_plan proc autoMode cyclePlan project_path "default" fuel cyclePlan
      (GenSt.mk [] (fun _ => none) input []) = none := by
  have h := (cycle_exhausts_fuel proc autoMode project_path fuel
    (GenSt.mk [] (fun _ => none) input []) (by simp) (by simp)).1
  simp only [cyclePlan] at h ⊢
  simp [generate_files_from_plan, h]

/-- C2: when the oracle returns a non-empty suggestion for every prompt,
a file whose `create_file_entry` run resolves has its name in
GenerationState afterwards — whatever the mode and whatever the user
answered (apply or discard), since the name is added after the review loop
returns on every path; and a name already in GenerationState is skipped
identically by the top-level walk and by the dependency loop, so it is
never processed again within the pass. -/
theorem generation_marks_and_never_revisits
    (proc : String → ProcOutcome) (autoMode : Bool) (files_list : List FileEntry)
    (project_path project_type : String) (fuel : Nat) (fe : FileEntry)
    (st st2 : GenSt) (rest : List FileEntry) (ds : List String)
    (recur : FileEntry → GenSt → Option GenSt)
    (hne : ∀ p : String, pyStrip (run_ollama (proc p)) ≠ "") :
    (create_file_entry proc autoMode files_list project_path project_type (fuel + 1) fe st
        = some st2 → fe.name ∈ st2.created)
    ∧ (fe.name ∈ st.created →
        generate_files_from_plan proc autoMode files_list project_path project_type fuel
            (fe :: rest) st
          = generate_files_from_plan proc autoMode files_list project_path project_type fuel
              rest st)
    ∧ (fe.name ∈ st.created →
        processDeps files_list project_type recur (fe.name :: ds) st
          = processDeps files_list project_type recur ds st) := by
  refine ⟨fun h => ?_, fun h => ?_, fun h => ?_⟩
  · simp only [create_file_entry] at h
    split at h
    · simp at h
    · simp only [finishEntry] at h
      rw [if_neg (hne _)] at h
      split at h
      · simp at h
      · simp only [Option.some.injEq] at h
        subst h
        exact addName_mem _ _
  · simp [generate_files_from_plan, h]
  · cases hf : findEntry files_list fe.name with
    | none => simp [processDeps, hf]
    | some e =>
      have he : e.name = fe.name := findEntry_name hf
      simp [processDeps, hf, he, h]

/-- A constant oracle behaviour that always succeeds with `"content"`. -/
def procConst : String → ProcOutcome := fun _ => ProcOutcome.ok "content" "" 0

/-- A one-file plan entry with no dependencies. -/
def feW : FileEntry := FileEntry.mk "a.py" "" []

/-- Start state whose next user answer is apply. -/
def stApply : GenSt := GenSt.mk [] (fun _ => none) [Decision.apply] []

/-- Start state whose next user answer is discard. -/
def stDiscard : GenSt := GenSt.mk [] (fun _ => none) [Decision.discard] []

/-- The state `create_file_entry` reaches from `stApply`. -/
def stApplyOut : GenSt :=
  GenSt.mk ["a.py"] (writeStore (fun _ => none) "p/a.py" "content") []
    ["Write the initial content for 'a.py': "]

/-- The state `create_file_entry` reaches from `stDiscard`: storage is
untouched but the name is in GenerationState all the same. -/
def stDiscardOut : GenSt :=
  GenSt.mk ["a.py"] (fun _ => none) [] ["Write the initial content for 'a.py': "]

/-- The constant oracle behaviour never yields an empty suggestion. -/
theorem procConst_ne (p : String) : pyStrip (run_ollama (procConst p)) ≠ "" := by
  show pyStrip (run_ollama (ProcOutcome.ok "content" "" 0)) ≠ ""
  decide

/-- C2 witness: one concrete run per decision — on apply and on discard the
file name ends up in GenerationState. -/
theorem generation_marks_witness :
    "a.py" ∈ stApplyOut.created ∧ "a.py" ∈ stDiscardOut.created :=
  ⟨(generation_marks_and_never_revisits procConst false [feW] "p" "default" 0 feW stApply
      stApplyOut [] [] (fun _ s => some s) procConst_ne).1 rfl,
   (generation_marks_and_never_revisits procConst false [feW] "p" "default" 0 feW stDiscard
      stDiscardOut [] [] (fun _ s => some s) procConst_ne).1 rfl⟩

/-- C6: dependency names that resolve to no FileSpec in the plan are
silently ignored: the dependency loop leaves the state untouched when every
dependency is unresolvable, generation of the file is identical to
generation of the same file with no dependencies at all, and on any
resolving run the file's own generation prompt was sent to the oracle
(it is in the call trace) — no attempt is made to generate the missing
dependency. -/
theorem unresolved_deps_ignored
    (proc : String → ProcOutcome) (autoMode : Bool) (files_list : List FileEntry)
    (project_path project_type : String) (fuel : Nat) (fe : FileEntry) (st : GenSt)
    (recur : FileEntry → GenSt → Option GenSt)
    (hmiss : ∀ d ∈ fe.dependencies, findEntry files_list d = none) :
    processDeps files_list project_type recur fe.dependencies st = some st
    ∧ create_file_entry proc autoMode files_list project_path project_type (fuel + 1) fe st
        = create_file_entry proc autoMode files_list project_path project_type (fuel + 1)
            (FileEntry.mk fe.name fe.description []) st
    ∧ (∀ st2,
        create_file_entry proc autoMode files_list project_path project_type (fuel + 1) fe st
          = some st2 → (buildPrompt project_path fe st.fs).snd ∈ st2.calls) := by
  have key : ∀ (ds : List String), (∀ d ∈ ds, findEntry files_list d = none) →
      ∀ (s : GenSt) (r : FileEntry → GenSt → Option GenSt),
        processDeps files_list project_type r ds s = some s := by
    intro ds
    induction ds with
    | nil => intro _ s r; rfl
    | cons d rest ihd =>
      intro hm s r
      have hd := hm d (List.mem_cons_self d rest)
      simp [processDeps, hd, ihd (fun x hx => hm x (List.mem_cons_of_mem d hx)) s r]
  obtain ⟨nm, dsc, deps⟩ := fe
  have hstep : create_file_entry proc autoMode files_list project_path project_type (fuel + 1)
      (FileEntry.mk nm dsc deps) st
        = finishEntry proc autoMode project_path (FileEntry.mk nm dsc deps) st := by
    simp only [create_file_entry]
    rw [key deps hmiss st _]
  refine ⟨key deps hmiss st recur, ?_, ?_⟩
  · rw [hstep]
    have hstep0 : create_file_entry proc autoMode files_list project_path project_type (fuel + 1)
        (FileEntry.mk nm dsc []) st
          = finishEntry proc autoMode project_path (FileEntry.mk nm dsc []) st := by
      simp only [create_file_entry]
      rw [key [] (by simp) st _]
    rw [hstep0]
    rfl
  · intro st2 h
    rw [hstep] at h
    simp only [finishEntry] at h
    split at h
    · simp only [Option.some.injEq] at h
      subst h
      simp
    · split at h
      · simp at h
      · rename_i fs2 input2 calls2 heq
        simp only [Option.some.injEq] at h
        subst h
        obtain ⟨ext, hext⟩ :=
          handle_suggestion_calls_extend _ _ _ _ _ _ _ _ _ _ _ heq
        rw [hext]
        simp

/-- A plan entry whose sole dependency name resolves to nothing. -/
def feGhost : FileEntry := FileEntry.mk "a.py" "" ["ghost.txt"]

/-- C6 witness: the dependency loop over the unresolvable dependency of
`feGhost` is the identity on the state. -/
theorem unresolved_deps_ignored_witness :
    processDeps [feGhost] "default" (fun _ s => some s) feGhost.dependencies stApply
      = some stApply :=
  (unresolved_deps_ignored procConst false [feGhost] "p" "default" 0 feGhost stApply
    (fun _ s => some s) (by decide)).1

/-- C7: a dependency that resolves to a plan entry not yet in
GenerationState is recursively materialised exactly when its name ends in
one of the extensions registered for the project type: when
`is_resource_file` holds the dependency loop continues through a recursive
`create_file_entry` run on the entry, and when it does not hold the
dependency is skipped with no generation at all; and a project type absent
from the `PROJECT_RESOURCE_EXTS` registry uses the broad default
allow-list. -/
theorem resource_dep_gating
    (files_list : List FileEntry) (project_type dep pt2 : String) (rest : List String)
    (st : GenSt) (e : FileEntry) (recur : FileEntry → GenSt → Option GenSt) :
    (findEntry files_list dep = some e → e.name ∉ st.created →
      (is_resource_file e.name project_type = true →
        processDeps files_list project_type recur (dep :: rest) st
          = (recur e st).bind (fun s2 => processDeps files_list project_type recur rest s2))
      ∧ (is_resource_file e.name project_type = false →
        processDeps files_list project_type recur (dep :: rest) st
          = processDeps files_list project_type recur rest st))
    ∧ (PROJECT_RESOURCE_EXTS.find? (fun p => p.fst == pt2) = none →
        resourceExts pt2 = defaultExts) := by
  constructor
  · intro hf hmem
    constructor
    · intro hres
      simp only [processDeps, hf]
      rw [if_neg hmem, if_pos hres]
      cases recur e st with
      | none => rfl
      | some s2 => rfl
    · intro hres
      simp only [processDeps, hf]
      rw [if_neg hmem, if_neg (by simp [hres])]
  · intro h
    simp [resourceExts, h]

/-- A plan entry whose name matches the website allow-list. -/
def feCss : FileEntry := FileEntry.mk "x.css" "" []

/-- C7 witness: for the website type, a resolved fresh `.css` dependency
recurses; an unregistered project type falls back to the default
allow-list. -/
theorem resource_dep_gating_witness :
    processDeps [feCss] "website" (fun _ s => some s) ["x.css"] stApply
      = ((fun (_ : FileEntry) (s : GenSt) => some s) feCss stApply).bind
          (fun s2 => processDeps [feCss] "website" (fun _ s => some s) [] s2)
    ∧ resourceExts "plaintext" = defaultExts :=
  ⟨((resource_dep_gating [feCss] "website" "x.css" "plaintext" [] stApply feCss
      (fun _ s => some s)).1 (by decide) (by decide)).1 (by decide),
   (resource_dep_gating [feCss] "website" "x.css" "plaintext" [] stApply feCss
      (fun _ s => some s)).2 (by decide)⟩

/-- C10: when the oracle's suggestion for a file is empty after stripping,
`create_file_entry` returns with `files_created` exactly as the dependency
loop left it — the file's name is not added (only the call trace grows) —
and a later encounter of the same still-uncreated name as a resolved
resource-type dependency runs `create_file_entry` on it again (the oracle
is re-queried for it within the same pass). -/
theorem empty_suggestion_skips_and_requeries
    (proc : String → ProcOutcome) (autoMode : Bool) (files_list : List FileEntry)
    (project_path project_type : String) (fuel : Nat) (fe : FileEntry) (st st1 : GenSt)
    (hdeps : processDeps files_list project_type
        (fun e s => create_file_entry proc autoMode files_list project_path project_type fuel e s)
        fe.dependencies st = some st1)
    (hempty : pyStrip (run_ollama (proc (buildPrompt project_path fe st1.fs).snd)) = "") :
    create_file_entry proc autoMode files_list project_path project_type (fuel + 1) fe st
      = some (GenSt.mk st1.created st1.fs st1.input
          (st1.calls ++ [(buildPrompt project_path fe st1.fs).snd]))
    ∧ (∀ (fuel2 : Nat) (ds : List String) (st2 : GenSt),
        findEntry files_list fe.name = some fe → fe.name ∉ st2.created →
        is_resource_file fe.name project_type = true →
        processDeps files_list project_type
            (fun e s =>
              create_file_entry proc autoMode files_list project_path project_type fuel2 e s)
            (fe.name :: ds) st2
          = (create_file_entry proc autoMode files_list project_path project_type fuel2 fe
                st2).bind
              (fun s2 => processDeps files_list project_type
                (fun e s =>
                  create_file_entry proc autoMode files_list project_path project_type fuel2 e s)
                ds s2)) := by
  constructor
  · simp only [create_file_entry]
    rw [hdeps]
    show finishEntry proc autoMode project_path fe st1 = _
    simp only [finishEntry]
    rw [if_pos hempty]
  · intro fuel2 ds st2 hf hmem hres
    simp only [processDeps, hf]
    rw [if_neg hmem, if_pos hres]
    cases create_file_entry proc autoMode files_list project_path project_type fuel2 fe st2 with
    | none => rfl
    | some s2 => rfl

/-- A constant oracle behaviour that always succeeds with empty output. -/
def procEmpty : String → ProcOutcome := fun _ => ProcOutcome.ok "" "" 0

/-- A one-file entry for the empty-suggestion run. -/
def feE : FileEntry := FileEntry.mk "a.py" "" []

/-- A start state with no input at all (none is needed: the file is
skipped before the review loop). -/
def stE : GenSt := GenSt.mk [] (fun _ => none) [] []

/-- C10 witness: a concrete run in which the always-empty oracle makes
`create_file_entry` return with an empty GenerationState and only the
call trace grown. -/
theorem empty_suggestion_witness :
    create_file_entry procEmpty false [feE] "p" "default" 1 feE stE
      = some (GenSt.mk stE.created stE.fs stE.input
          (stE.calls ++ [(buildPrompt "p" feE stE.fs).snd])) :=
  (empty_suggestion_skips_and_requeries procEmpty false [feE] "p" "default" 0 feE stE stE
    rfl (by decide)).1
